import Mathlib

/-!
Verification development for the claude-code-action repository core:
a shallow embedding in Lean 4 of the path validator (src/mcp/path-validation.ts),
the permission-overlay parser and credential exchange (src/github/token.ts),
the actor comment filter (src/github/utils/actor-filter.ts), the mode
preparation steps (src/modes/agent, src/modes/tag), and the phase
orchestrator (src/entrypoints/run.ts), together with theorems settling the
stated properties of the specification.

Strings are modelled with Lean `String`; the few JavaScript string
primitives the code uses (split, trim, startsWith, endsWith, indexOf) are
re-implemented structurally over `String.data` so that all definitions
evaluate by kernel reduction.
-/

/-! ## JavaScript string primitives, modelled structurally over `List Char` -/

/-- Splits a character list at every occurrence of `c`, keeping empty pieces,
matching the semantics of JavaScript `String.prototype.split` with a
single-character separator (for example, splitting `"a::b"` on the colon gives
`["a", "", "b"]`, and splitting the empty string gives `[""]`). -/
def splitCharsOn (c : Char) : List Char → List (List Char)
  | [] => [[]]
  | x :: xs =>
    let r := splitCharsOn c xs
    if x = c then [] :: r
    else
      match r with
      | [] => [[x]]
      | y :: ys => (x :: y) :: ys

/-- Finds the first occurrence of `c` and returns the characters strictly
before it and strictly after it; `none` when `c` does not occur. This models
the JavaScript pattern `indexOf(c)` followed by `slice(0, i)` and
`slice(i + 1)`. -/
def breakAtFirst (c : Char) : List Char → Option (List Char × List Char)
  | [] => none
  | x :: xs =>
    if x = c then some ([], xs)
    else
      match breakAtFirst c xs with
      | none => none
      | some (pre, post) => some (x :: pre, post)

/-- Whitespace characters recognised by the model of JavaScript `trim`. -/
def isWsChar (c : Char) : Bool :=
  c = ' ' || c = '\t' || c = '\n' || c = '\r'

/-- Model of JavaScript `String.prototype.trim` (restricted to the ASCII
whitespace that appears in this code base). -/
def strTrim (s : String) : String :=
  ⟨((s.data.dropWhile isWsChar).reverse.dropWhile isWsChar).reverse⟩

/-- Model of JavaScript `String.prototype.startsWith`. -/
def strStartsWith (s pre : String) : Bool :=
  pre.data.isPrefixOf s.data

/-- Model of JavaScript `String.prototype.endsWith`. -/
def strEndsWith (s suf : String) : Bool :=
  suf.data.isSuffixOf s.data

/-! ## Node path resolution (lexical), as used by `path.resolve`

The validator only ever calls `resolve` with an absolute base (the repository
root, or the already-resolved candidate), so the model covers POSIX absolute
bases: split on the separator, drop empty segments, collapse `.` and `..`
lexically, and rejoin. -/

/-- The segments of a POSIX path: split on the separator, empty pieces
dropped. -/
def splitSegs (p : String) : List String :=
  ((splitCharsOn '/' p.data).filter (fun cs => cs ≠ [])).map (fun cs => ⟨cs⟩)

/-- Collapses `.` and `..` segments lexically, as Node `path.resolve` does
(`..` at the root is dropped). -/
def collapseSegs (segs : List String) : List String :=
  segs.foldl
    (fun acc seg =>
      if seg = "." then acc
      else if seg = ".." then acc.dropLast
      else acc ++ [seg])
    []

/-- Joins segments back into an absolute POSIX path. -/
def joinAbs (segs : List String) : String :=
  "/" ++ String.intercalate "/" segs

/-- Model of Node `path.resolve(base, p)` for an absolute `base`: an absolute
`p` stands alone, a relative `p` is appended to `base`; either way `.` and
`..` segments are collapsed lexically. -/
def resolvePath (base p : String) : String :=
  if strStartsWith p "/" then joinAbs (collapseSegs (splitSegs p))
  else joinAbs (collapseSegs (splitSegs base ++ splitSegs p))

/-! ## Path validation (src/mcp/path-validation.ts)

The filesystem is abstracted as a `realpath` oracle: `some r` when realpath
succeeds and returns `r` (the path exists, symlinks fully resolved), `none`
when realpath throws (the path does not exist). The two error messages of the
source wrap the offending path in single-quote characters; the model elides
those quote characters but keeps the message text. -/

/-- The filesystem as seen by the validator: the outcome of `realpath` on
every path string. -/
structure FS where
  realpathOf : String → Option String

/-- The two failures of `validatePathWithinRepo`, named as in the
specification; each carries the thrown message. -/
inductive PathError
  | RootNotFound (msg : String)
  | PathEscapesRoot (msg : String)
deriving DecidableEq, Repr

/-- Shallow embedding of `validatePathWithinRepo` from
src/mcp/path-validation.ts. The inner `throw` of the parent-containment
check lands in the surrounding catch, which throws the same
path-escapes-root message, so both are modelled by the same error. -/
def validatePathWithinRepo (fs : FS) (filePath repoRoot : String) :
    Except PathError String :=
  let initialPath := resolvePath repoRoot filePath
  match fs.realpathOf repoRoot with
  | none =>
    .error (.RootNotFound ("Repository root " ++ repoRoot ++ " does not exist"))
  | some resolvedRoot =>
    match fs.realpathOf initialPath with
    | some resolvedPath =>
      if resolvedPath ≠ resolvedRoot &&
          !(strStartsWith resolvedPath (resolvedRoot ++ "/")) then
        .error (.PathEscapesRoot
          ("Path " ++ filePath ++ " resolves outside the repository root"))
      else
        .ok resolvedPath
    | none =>
      let parentDir := resolvePath initialPath ".."
      match fs.realpathOf parentDir with
      | some resolvedParent =>
        if resolvedParent ≠ resolvedRoot &&
            !(strStartsWith resolvedParent (resolvedRoot ++ "/")) then
          .error (.PathEscapesRoot
            ("Path " ++ filePath ++ " resolves outside the repository root"))
        else
          .ok initialPath
      | none =>
        .error (.PathEscapesRoot
          ("Path " ++ filePath ++ " resolves outside the repository root"))

/-! ## Permission overlay (src/github/token.ts, `parseAdditionalPermissions`)

A JavaScript object with string keys and string values is modelled as an
association list with unique keys; `recordSet` models property assignment
(`obj[key] = value`): the first entry with the key is replaced in place,
otherwise the pair is appended, so insertion order is preserved exactly as
JavaScript objects preserve it. `recordMerge base ov` models the spread
`\x7b ...base, ...ov \x7d`. -/

/-- JavaScript object property assignment over an association list. -/
def recordSet : List (String × String) → String → String → List (String × String)
  | [], k, v => [(k, v)]
  | p :: r, k, v => if p.1 = k then (k, v) :: r else p :: recordSet r k v

/-- JavaScript object property lookup: the value at the first entry whose key
matches. -/
def recordGet : List (String × String) → String → Option String
  | [], _ => none
  | p :: r, k => if p.1 = k then some p.2 else recordGet r k

/-- JavaScript object spread-merge: every entry of `ov` assigned, in order,
over `base`. -/
def recordMerge (base ov : List (String × String)) : List (String × String) :=
  ov.foldl (fun acc p => recordSet acc p.1 p.2) base

/-- The fixed default permission set of src/github/token.ts. -/
def DEFAULT_PERMISSIONS : List (String × String) :=
  [("contents", "write"), ("pull_requests", "write"), ("issues", "write")]

/-- One iteration of the line loop of `parseAdditionalPermissions`: trim the
line, skip it when empty or colon-free, split at the first colon, trim key and
value, keep only pairs where both are non-empty. -/
def parseLine (acc : List (String × String)) (line : String) :
    List (String × String) :=
  let trimmed := strTrim line
  if trimmed = "" then acc
  else
    match breakAtFirst ':' trimmed.data with
    | none => acc
    | some (pre, post) =>
      let key := strTrim ⟨pre⟩
      let value := strTrim ⟨post⟩
      if key ≠ "" && value ≠ "" then recordSet acc key value else acc

/-- Shallow embedding of `parseAdditionalPermissions` from
src/github/token.ts. The environment variable ADDITIONAL_PERMISSIONS is
passed explicitly (`none` models an unset variable; the JavaScript guard
`!raw` also catches the empty string, which `strTrim raw = ""` covers). -/
def parseAdditionalPermissions (raw : Option String) :
    Option (List (String × String)) :=
  match raw with
  | none => none
  | some raw =>
    if strTrim raw = "" then none
    else
      let additional :=
        ((splitCharsOn '\n' raw.data).map (fun cs => (⟨cs⟩ : String))).foldl
          parseLine []
      if additional = [] then none
      else some (recordMerge DEFAULT_PERMISSIONS additional)

/-! ## Actor comment filter (src/github/utils/actor-filter.ts) -/

/-- Shallow embedding of `actorMatchesPattern`: exact match, or the reserved
bot wildcard against a name ending in the bot-suffix marker. -/
def actorMatchesPattern (actor pattern : String) : Bool :=
  if actor = pattern then true
  else if pattern = "*[bot]" && strEndsWith actor "[bot]" then true
  else false

/-- Shallow embedding of `shouldIncludeCommentByActor`: exclusion first and
decisive, then a non-empty include list keeps only matches, otherwise keep. -/
def shouldIncludeCommentByActor (actor : String)
    (includeActors excludeActors : List String) : Bool :=
  if excludeActors.length > 0 && excludeActors.any (actorMatchesPattern actor) then
    false
  else if includeActors.length > 0 then
    includeActors.any (actorMatchesPattern actor)
  else
    true

/-! ## Credential broker (src/github/token.ts)

Thrown JavaScript errors are modelled by `RunError`: `skip` is the class
`WorkflowValidationSkipError`, `err` is every other `Error`; both carry the
message. An HTTP response from the token-exchange endpoint is modelled by the
fields the code reads from it. -/

/-- A thrown error: the distinguished skip signal, or an ordinary error. -/
inductive RunError
  | skip (msg : String)
  | err (msg : String)
deriving DecidableEq, Repr

/-- The message carried by a thrown error (`error.message`). -/
def errMessage : RunError → String
  | .skip m => m
  | .err m => m

/-- A response of the credential-exchange endpoint, as read by
`exchangeForAppToken`: the success flag, the parsed JSON error fields, and
the two accepted credential fields of a success body. -/
structure ExchangeResponse where
  ok : Bool
  errorMessage : Option String
  errorCode : Option String
  topMessage : Option String
  token : Option String
  app_token : Option String

/-- JavaScript truthiness of an optional string: present and non-empty. -/
def optTruthy : Option String → Bool
  | some s => s ≠ ""
  | none => false

/-- JavaScript `a || b` on optional strings: `b` when `a` is absent or
empty. -/
def orFalsy (a b : Option String) : Option String :=
  if optTruthy a then a else b

/-- Shallow embedding of `exchangeForAppToken` from src/github/token.ts,
as a function of the response it receives. On a non-success response the
structured error code is inspected: the workflow-validation code raises the
skip signal with the server-provided message (`message` then `error.message`
then a fixed fallback, by nullish coalescing); any other non-success response
raises a hard error with `error.message` or a fallback. A success response
must carry a truthy credential under `token` or `app_token`. -/
def exchangeForAppToken (resp : ExchangeResponse) : Except RunError String :=
  if !resp.ok then
    if resp.errorCode = some "workflow_not_found_on_default_branch" then
      .error (.skip ((resp.topMessage.getD
        (resp.errorMessage.getD "Workflow validation failed"))))
    else
      .error (.err (resp.errorMessage.getD "Unknown error"))
  else
    match orFalsy resp.token resp.app_token with
    | some t =>
      if t = "" then .error (.err "App token not found in response") else .ok t
    | none => .error (.err "App token not found in response")

/-- Modelled from the spec: `retryWithBackoff` lives in src/utils/retry.ts,
which is not part of the sources here. Per section 4.1 of the specification,
the wrapper retries the operation up to `maxAttempts` times with backoff,
re-raises the last error once attempts are exhausted, and lets the designated
non-retryable skip signal propagate immediately on first occurrence. The
operation is modelled as a function of the attempt index; `retryFrom op i n`
runs attempts `i, i+1, ...` with `n` attempts remaining. Backoff delays do
not affect outcomes and are elided. -/
def retryFrom (op : Nat → Except RunError α) (i : Nat) : Nat → Except RunError α
  | 0 => .error (.err "retry invoked with no attempts")
  | n + 1 =>
    match op i with
    | .ok a => .ok a
    | .error (.skip m) => .error (.skip m)
    | .error (.err m) =>
      if n = 0 then .error (.err m) else retryFrom op (i + 1) n

/-- Modelled from the spec: the entry point of the retry wrapper, starting at
attempt 0 (see `retryFrom`). -/
def retryWithBackoff (op : Nat → Except RunError α) (maxAttempts : Nat) :
    Except RunError α :=
  retryFrom op 0 maxAttempts

/-- The inputs of `setupGitHubToken`: the optional override credential, the
per-attempt outcomes of the identity-token fetch and of the exchange call,
and the attempt bound of the retry wrapper (spec-modelled, src/utils/retry.ts
not being among the sources). -/
structure TokenEnv where
  overrideToken : Option String
  oidcResults : Nat → Except RunError String
  exchangeResponses : Nat → ExchangeResponse
  maxAttempts : Nat
  additionalPermissionsRaw : Option String

/-- Shallow embedding of `setupGitHubToken` from src/github/token.ts: a
truthy override credential is returned verbatim, bypassing the exchange;
otherwise the identity token is fetched under retry, the permission overlay
is parsed (it shapes only the request payload, which the response oracle
already accounts for), and the exchange runs under retry. -/
def setupGitHubToken (env : TokenEnv) : Except RunError String :=
  if optTruthy env.overrideToken then .ok (env.overrideToken.getD "")
  else
    match retryWithBackoff env.oidcResults env.maxAttempts with
    | .error e => .error e
    | .ok _ =>
      retryWithBackoff (fun i => exchangeForAppToken (env.exchangeResponses i))
        env.maxAttempts

/-! ## Phase orchestrator (src/entrypoints/run.ts)

The `run` function of src/entrypoints/run.ts is a single try / catch /
finally. Every awaited collaborator call that can throw is modelled as an
`Except RunError` value supplied by the environment; the body is translated
statement by statement into a state record, the `catch` into a handler on the
thrown error, and the `finally` into an unconditional suffix (JavaScript runs
the finally block exactly once on normal return, on early return, and on
throw). `core.setOutput` calls are modelled as an append-only list of
name / value events; a value of `none` is an output emitted with an
undefined JavaScript value. The step-summary writer is elided: it emits no
outputs and catches all of its own errors. -/

/-- The result of a successful mode preparation, as consumed by `run`. -/
structure PrepResult where
  commentId : Option Nat
  claudeBranch : Option String
  baseBranch : Option String

/-- The result of a completed workload run (`runClaude`). -/
structure ClaudeResult where
  conclusion : String
  executionFile : Option String
  sessionId : Option String
  structuredOutput : Option String

/-- The environment of one orchestrator run: outcomes of every fallible
collaborator step, and the configuration the control flow reads. The phase
between preparation and the workload call (CLI install, environment
validation, settings, plugins, prompt staging) is folded into one outcome,
`installResult`, since `run` sequences those calls without catching. -/
structure RunEnv where
  earlyResult : Except RunError Unit
  tokenEnv : TokenEnv
  isEntity : Bool
  permResult : Except RunError Bool
  modeIsTag : Bool
  tagTriggerResult : Bool
  promptInput : Option String
  prepareResult : Except RunError PrepResult
  installResult : Except RunError Unit
  claudeResult : Except RunError ClaudeResult
  updateCommentResult : Except RunError Unit

/-- The mutable state of `run`, plus the observable events it produces:
outputs in emission order, the `core.setFailed` message, the logged cleanup
error, and a counter of executions of the finally block. -/
structure RunState where
  githubToken : Option String := none
  commentId : Option Nat := none
  claudeBranch : Option String := none
  baseBranch : Option String := none
  executionFile : Option String := none
  claudeSuccess : Bool := false
  prepareSuccess : Bool := true
  prepareError : Option String := none
  prepareCompleted : Bool := false
  outputs : List (String × Option String) := []
  setFailedMsg : Option String := none
  cleanupCommentAttempts : Nat := 0
  cleanupCommentError : Option String := none
  finallyCount : Nat := 0

/-- The trigger condition of `run`: in tag mode an entity context with the
trigger phrase present, otherwise a truthy configured prompt. -/
def containsTrigger (env : RunEnv) : Bool :=
  if env.modeIsTag then env.isEntity && env.tagTriggerResult
  else optTruthy env.promptInput

/-- The try block of `run` (lines 139-258 of src/entrypoints/run.ts):
returns the state reached and the error escaping the block, if any. The
catch around `setupGitHubToken` is part of the block: the skip signal sets
the skipped output and returns normally, every other error is rethrown. -/
def tryPhase (env : RunEnv) : RunState × Option RunError :=
  let s0 : RunState := {}
  match env.earlyResult with
  | .error e => (s0, some e)
  | .ok _ =>
    match setupGitHubToken env.tokenEnv with
    | .error (.skip _) =>
      ({ s0 with outputs :=
          s0.outputs ++ [("skipped_due_to_workflow_validation_mismatch", some "true")] },
        none)
    | .error (.err m) => (s0, some (.err m))
    | .ok token =>
      let s1 := { s0 with githubToken := some token }
      let permOutcome : Except RunError Unit :=
        if env.isEntity then
          match env.permResult with
          | .error e => .error e
          | .ok true => .ok ()
          | .ok false =>
            .error (.err "Actor does not have write permissions to the repository")
        else .ok ()
      match permOutcome with
      | .error e => (s1, some e)
      | .ok _ =>
        if !containsTrigger env then
          ({ s1 with outputs := s1.outputs ++ [("github_token", some token)] }, none)
        else
          match env.prepareResult with
          | .error e => (s1, some e)
          | .ok prep =>
            let s2 := { s1 with
              commentId := prep.commentId,
              claudeBranch := prep.claudeBranch,
              baseBranch := prep.baseBranch,
              prepareCompleted := true }
            match env.installResult with
            | .error e => (s2, some e)
            | .ok _ =>
              match env.claudeResult with
              | .error e => (s2, some e)
              | .ok cr =>
                let s3 := { s2 with
                  claudeSuccess := cr.conclusion = "success",
                  executionFile := cr.executionFile }
                let outs :=
                  (if optTruthy cr.executionFile then
                    [("execution_file", cr.executionFile)] else []) ++
                  (if optTruthy cr.sessionId then
                    [("session_id", cr.sessionId)] else []) ++
                  (if optTruthy cr.structuredOutput then
                    [("structured_output", cr.structuredOutput)] else []) ++
                  [("conclusion", some cr.conclusion)]
                ({ s3 with outputs := s3.outputs ++ outs }, none)

/-- JavaScript truthiness of the optional comment id (a number: zero is
falsy). -/
def commentIdTruthy : Option Nat → Bool
  | some c => c ≠ 0
  | none => false

/-- The catch block of `run` (lines 259-266 of src/entrypoints/run.ts):
attribute the failure to preparation exactly when `prepareCompleted` is
still unset, and record the failure message. -/
def catchPhase (s : RunState) : Option RunError → RunState
  | none => s
  | some e =>
    let msg := errMessage e
    let s :=
      if !s.prepareCompleted then
        { s with prepareSuccess := false, prepareError := some msg }
      else s
    { s with setFailedMsg := some ("Action failed with error: " ++ msg) }

/-- The finally block of `run` (lines 267-310 of src/entrypoints/run.ts):
update the tracking comment when one exists, swallowing and logging its
error; emit the branch-name and credential outputs. -/
def finallyPhase (env : RunEnv) (s : RunState) : RunState :=
  let s := { s with finallyCount := s.finallyCount + 1 }
  let s :=
    if commentIdTruthy s.commentId && env.isEntity && optTruthy s.githubToken then
      let s := { s with cleanupCommentAttempts := s.cleanupCommentAttempts + 1 }
      match env.updateCommentResult with
      | .ok _ => s
      | .error e => { s with cleanupCommentError := some (errMessage e) }
    else s
  { s with outputs :=
      s.outputs ++ [("branch_name", s.claudeBranch), ("github_token", s.githubToken)] }

/-- Shallow embedding of `run` from src/entrypoints/run.ts: the try block,
then the catch on the error escaping it, then the finally block. -/
def runAction (env : RunEnv) : RunState :=
  let (s, thrown) := tryPhase env
  finallyPhase env (catchPhase s thrown)

/-! ## Mode preparation (src/modes/agent/index.ts and src/modes/tag/index.ts)

Both preparation steps are sequences of awaited collaborator calls, modelled
as `Except RunError` outcomes in an environment. The point of interest for
the propagation policy is the handling of `configureGitAuth`: agent mode
wraps it in a catch that logs and continues, tag mode wraps it in a catch
that logs and rethrows. The agent-mode result records the suppressed
git-auth message, when one was swallowed, so that suppression is
observable in the model. -/

/-- The environment of `prepareAgentMode`: the outcome of each fallible step
and the inputs that steer the branching. -/
structure AgentPrepEnv where
  checkHumanActor : Except RunError Unit
  sshSigningKey : String
  useCommitSigning : Bool
  setupSshSigningResult : Except RunError Unit
  configureGitAuthResult : Except RunError Unit
  mkdirResult : Except RunError Unit
  writeFileResult : Except RunError Unit
  prepareMcpResult : Except RunError Unit

/-- Shallow embedding of `prepareAgentMode` from src/modes/agent/index.ts.
The human-actor gate, the SSH-signing setup, the prompt staging and the MCP
configuration propagate their errors; `configureGitAuth` is called inside a
catch that logs the error and continues, in both the SSH branch and the
plain branch. The returned value is the suppressed git-auth message, if
any. -/
def prepareAgentMode (e : AgentPrepEnv) : Except RunError (Option String) :=
  match e.checkHumanActor with
  | .error er => .error er
  | .ok _ =>
    let useSshSigning := e.sshSigningKey ≠ ""
    let useApiCommitSigning := e.useCommitSigning && !useSshSigning
    let gitAuthStep : Except RunError (Option String) :=
      if useSshSigning then
        match e.setupSshSigningResult with
        | .error er => .error er
        | .ok _ =>
          .ok (match e.configureGitAuthResult with
            | .ok _ => none
            | .error er => some (errMessage er))
      else if !useApiCommitSigning then
        .ok (match e.configureGitAuthResult with
          | .ok _ => none
          | .error er => some (errMessage er))
      else .ok none
    match gitAuthStep with
    | .error er => .error er
    | .ok suppressed =>
      match e.mkdirResult with
      | .error er => .error er
      | .ok _ =>
        match e.writeFileResult with
        | .error er => .error er
        | .ok _ =>
          match e.prepareMcpResult with
          | .error er => .error er
          | .ok _ => .ok suppressed

/-- The environment of `prepareTagMode`. -/
structure TagPrepEnv where
  isEntity : Bool
  checkHumanActor : Except RunError Unit
  createInitialComment : Except RunError Nat
  fetchGitHubData : Except RunError Unit
  setupBranch : Except RunError Unit
  sshSigningKey : String
  useCommitSigning : Bool
  setupSshSigningResult : Except RunError Unit
  configureGitAuthResult : Except RunError Unit
  createPromptResult : Except RunError Unit
  prepareMcpResult : Except RunError Unit

/-- Shallow embedding of `prepareTagMode` from src/modes/tag/index.ts: the
entity-context guard, the human-actor gate, the tracking-comment creation,
the context fetch and the branch setup all propagate; `configureGitAuth` is
called inside a catch that logs and rethrows, so its error propagates too.
Returns the tracking-comment id. -/
def prepareTagMode (e : TagPrepEnv) : Except RunError Nat :=
  if !e.isEntity then .error (.err "Tag mode requires entity context")
  else
    match e.checkHumanActor with
    | .error er => .error er
    | .ok _ =>
      match e.createInitialComment with
      | .error er => .error er
      | .ok commentId =>
        match e.fetchGitHubData with
        | .error er => .error er
        | .ok _ =>
          match e.setupBranch with
          | .error er => .error er
          | .ok _ =>
            let useSshSigning := e.sshSigningKey ≠ ""
            let useApiCommitSigning := e.useCommitSigning && !useSshSigning
            let gitAuthStep : Except RunError Unit :=
              if useSshSigning then
                match e.setupSshSigningResult with
                | .error er => .error er
                | .ok _ => e.configureGitAuthResult
              else if !useApiCommitSigning then
                e.configureGitAuthResult
              else .ok ()
            match gitAuthStep with
            | .error er => .error er
            | .ok _ =>
              match e.createPromptResult with
              | .error er => .error er
              | .ok _ =>
                match e.prepareMcpResult with
                | .error er => .error er
                | .ok _ => .ok commentId

/-! ## Theorems: path validation -/

/-- Claim C2: for a candidate that exists on disk, `validatePathWithinRepo`
succeeds exactly when the symlink-resolved candidate equals the resolved
root or starts with the resolved root followed by the path separator, and on
success it returns that symlink-resolved path; otherwise it fails with the
path-escapes-root error — so a sibling whose name merely string-prefixes the
root is rejected. -/
theorem validatePath_existing_iff (fs : FS) (filePath repoRoot rr rp : String)
    (hroot : fs.realpathOf repoRoot = some rr)
    (hpath : fs.realpathOf (resolvePath repoRoot filePath) = some rp) :
    (validatePathWithinRepo fs filePath repoRoot = .ok rp ↔
      (rp = rr ∨ strStartsWith rp (rr ++ "/") = true))
    ∧ (¬(rp = rr ∨ strStartsWith rp (rr ++ "/") = true) →
      validatePathWithinRepo fs filePath repoRoot =
        .error (.PathEscapesRoot
          ("Path " ++ filePath ++ " resolves outside the repository root"))) := by
  unfold validatePathWithinRepo
  simp only [hroot, hpath]
  by_cases h1 : rp = rr
  · simp [h1]
  · by_cases h2 : strStartsWith rp (rr ++ "/") = true
    · simp [h1, h2]
    · simp [h1, h2]

/-- A filesystem with the root `/repo`, a file inside it, and a sibling
directory `/repo-evil` whose name string-prefixes the root; no symlinks, so
realpath is the identity on the paths that exist. -/
def sibFS : FS :=
  { realpathOf := fun p =>
      if p = "/repo" then some "/repo"
      else if p = "/repo/sub" then some "/repo/sub"
      else if p = "/repo/sub/f.txt" then some "/repo/sub/f.txt"
      else if p = "/repo-evil/f" then some "/repo-evil/f"
      else none }

/-- Witness for claim C2: on `sibFS`, an existing file under the root is
accepted and returned symlink-resolved, while a path under the sibling
`/repo-evil` is rejected with the path-escapes-root error. -/
theorem validatePath_existing_iff_witness :
    validatePathWithinRepo sibFS "sub/f.txt" "/repo" = .ok "/repo/sub/f.txt"
    ∧ validatePathWithinRepo sibFS "/repo-evil/f" "/repo" =
      .error (.PathEscapesRoot
        ("Path " ++ "/repo-evil/f" ++ " resolves outside the repository root")) :=
  ⟨(validatePath_existing_iff sibFS "sub/f.txt" "/repo" "/repo" "/repo/sub/f.txt"
      (by decide) (by decide)).1.mpr (Or.inr (by decide)),
   (validatePath_existing_iff sibFS "/repo-evil/f" "/repo" "/repo" "/repo-evil/f"
      (by decide) (by decide)).2 (by decide)⟩

/-- Claim C7: for a candidate that does not exist while its parent directory
exists and resolves to the root or a descendant of it,
`validatePathWithinRepo` succeeds and returns the lexically-resolved
candidate (not a realpath of it, since the file cannot be realpathed yet). -/
theorem validatePath_new_file (fs : FS) (filePath repoRoot rr rparent : String)
    (hroot : fs.realpathOf repoRoot = some rr)
    (hpath : fs.realpathOf (resolvePath repoRoot filePath) = none)
    (hparent : fs.realpathOf (resolvePath (resolvePath repoRoot filePath) "..") = some rparent)
    (hin : rparent = rr ∨ strStartsWith rparent (rr ++ "/") = true) :
    validatePathWithinRepo fs filePath repoRoot = .ok (resolvePath repoRoot filePath) := by
  unfold validatePathWithinRepo
  simp only [hroot, hpath, hparent]
  rcases hin with h | h
  · simp [h]
  · simp [h]

/-- A filesystem with only the root `/repo` and a subdirectory `/repo/sub`
on disk; realpath is the identity on them. -/
def newFileFS : FS :=
  { realpathOf := fun p =>
      if p = "/repo" then some "/repo"
      else if p = "/repo/sub" then some "/repo/sub"
      else none }

/-- Witness for claim C7: creating `sub/new.txt` under `/repo` is accepted
and the lexically-resolved candidate is returned. -/
theorem validatePath_new_file_witness :
    validatePathWithinRepo newFileFS "sub/new.txt" "/repo" = .ok "/repo/sub/new.txt" :=
  validatePath_new_file newFileFS "sub/new.txt" "/repo" "/repo" "/repo/sub"
    (by decide) (by decide) (by decide) (Or.inr (by decide))

/-- Claim C10: when neither the lexically-resolved candidate nor its parent
directory exists (while the root does), `validatePathWithinRepo` fails with
the path-escapes-root error, with no regard to whether the lexical candidate
lies inside the root — so a new file inside a not-yet-created subdirectory is
rejected. -/
theorem validatePath_missing_parent (fs : FS) (filePath repoRoot rr : String)
    (hroot : fs.realpathOf repoRoot = some rr)
    (hpath : fs.realpathOf (resolvePath repoRoot filePath) = none)
    (hparent : fs.realpathOf (resolvePath (resolvePath repoRoot filePath) "..") = none) :
    validatePathWithinRepo fs filePath repoRoot =
      .error (.PathEscapesRoot
        ("Path " ++ filePath ++ " resolves outside the repository root")) := by
  unfold validatePathWithinRepo
  simp only [hroot, hpath, hparent]

/-- A filesystem where only the root `/repo` exists. -/
def bareRootFS : FS :=
  { realpathOf := fun p => if p = "/repo" then some "/repo" else none }

/-- Witness for claim C10: `sub/new.txt` under `/repo` resolves lexically to
a path strictly inside the root, yet validation fails with the
path-escapes-root error because the parent directory `sub` does not exist
yet. -/
theorem validatePath_missing_parent_witness :
    strStartsWith (resolvePath "/repo" "sub/new.txt") ("/repo" ++ "/") = true
    ∧ validatePathWithinRepo bareRootFS "sub/new.txt" "/repo" =
      .error (.PathEscapesRoot
        ("Path " ++ "sub/new.txt" ++ " resolves outside the repository root")) :=
  ⟨by decide,
   validatePath_missing_parent bareRootFS "sub/new.txt" "/repo" "/repo"
     (by decide) (by decide) (by decide)⟩

/-! ## Theorems: permission overlay -/

/-- After a JavaScript property assignment, looking up the assigned key
yields the assigned value. -/
theorem recordGet_recordSet_same (base : List (String × String)) (k v : String) :
    recordGet (recordSet base k v) k = some v := by
  induction base with
  | nil => simp [recordSet, recordGet]
  | cons p r ih =>
    by_cases h : p.1 = k
    · simp [recordSet, recordGet, h]
    · simp [recordSet, recordGet, h, ih]

/-- A JavaScript property assignment leaves every other key unchanged. -/
theorem recordGet_recordSet_other (base : List (String × String)) (k v k2 : String)
    (h : k2 ≠ k) :
    recordGet (recordSet base k v) k2 = recordGet base k2 := by
  have hk : k ≠ k2 := Ne.symm h
  induction base with
  | nil => simp [recordSet, recordGet, hk]
  | cons p r ih =>
    by_cases hp : p.1 = k
    · simp [recordSet, recordGet, hp, hk]
    · simp [recordSet, recordGet, hp, ih]

/-- Claim C8: `parseAdditionalPermissions` returns no overlay for an unset,
empty or whitespace-only input; `"actions: read"` yields the three defaults
plus the new scope; a key colliding with a default is overridden by the
user-supplied value (shown concretely for `"contents: read"`, and in general
for the merge of any single override over the default set) while every other
default is unchanged. -/
theorem parseAdditionalPermissions_spec :
    parseAdditionalPermissions none = none
    ∧ parseAdditionalPermissions (some "") = none
    ∧ parseAdditionalPermissions (some " \t \n  ") = none
    ∧ parseAdditionalPermissions (some "actions: read") =
        some [("contents", "write"), ("pull_requests", "write"),
              ("issues", "write"), ("actions", "read")]
    ∧ parseAdditionalPermissions (some "contents: read") =
        some [("contents", "read"), ("pull_requests", "write"), ("issues", "write")]
    ∧ (∀ k v, recordGet (recordMerge DEFAULT_PERMISSIONS [(k, v)]) k = some v)
    ∧ (∀ k v k2, k2 ≠ k →
        recordGet (recordMerge DEFAULT_PERMISSIONS [(k, v)]) k2 =
          recordGet DEFAULT_PERMISSIONS k2) :=
  ⟨by decide, by decide, by decide, by decide, by decide,
   fun k v => recordGet_recordSet_same DEFAULT_PERMISSIONS k v,
   fun k v k2 h => recordGet_recordSet_other DEFAULT_PERMISSIONS k v k2 h⟩

/-- Witness for claim C8: overriding `contents` with `read` wins for that
key and leaves the `issues` default unchanged. -/
theorem parseAdditionalPermissions_spec_witness :
    recordGet (recordMerge DEFAULT_PERMISSIONS [("contents", "read")]) "contents" =
      some "read"
    ∧ recordGet (recordMerge DEFAULT_PERMISSIONS [("contents", "read")]) "issues" =
      recordGet DEFAULT_PERMISSIONS "issues" :=
  ⟨(parseAdditionalPermissions_spec).2.2.2.2.2.1 "contents" "read",
   (parseAdditionalPermissions_spec).2.2.2.2.2.2 "contents" "read" "issues" (by decide)⟩

/-! ## Theorems: actor comment filter -/

/-- Bool-level characterization of `actorMatchesPattern`: exact equality, or
the bot wildcard against a bot-suffixed name. -/
theorem actorMatchesPattern_eq (actor p : String) :
    actorMatchesPattern actor p =
      (actor = p || (p = "*[bot]" && strEndsWith actor "[bot]")) := by
  unfold actorMatchesPattern
  by_cases h1 : actor = p
  · simp [h1]
  · by_cases h2 : p = "*[bot]"
    · simp [h1, h2]
    · simp [h1, h2]

/-- Claim C9: a pattern matches exactly when it equals the actor or is the
bot wildcard and the actor ends in the bot suffix; any matching exclude
pattern forces exclusion regardless of the include list; with no matching
exclude pattern and a non-empty include list, inclusion holds exactly when
some include pattern matches; with both lists empty everything is
included. -/
theorem shouldIncludeCommentByActor_spec (actor : String) (inc exc : List String) :
    (∀ p, actorMatchesPattern actor p = true ↔
      (p = actor ∨ (p = "*[bot]" ∧ strEndsWith actor "[bot]" = true)))
    ∧ ((∃ p ∈ exc, actorMatchesPattern actor p = true) →
        shouldIncludeCommentByActor actor inc exc = false)
    ∧ ((∀ p ∈ exc, actorMatchesPattern actor p = false) → inc ≠ [] →
        (shouldIncludeCommentByActor actor inc exc = true ↔
          ∃ p ∈ inc, actorMatchesPattern actor p = true))
    ∧ (inc = [] → exc = [] → shouldIncludeCommentByActor actor inc exc = true) := by
  refine ⟨?_, ?_, ?_, ?_⟩
  · intro p
    rw [actorMatchesPattern_eq]
    simp only [Bool.or_eq_true, Bool.and_eq_true, decide_eq_true_eq]
    constructor
    · rintro (h | h)
      · exact Or.inl h.symm
      · exact Or.inr h
    · rintro (h | h)
      · exact Or.inl h.symm
      · exact Or.inr h
  · rintro ⟨p, hp, hm⟩
    have hany : exc.any (actorMatchesPattern actor) = true :=
      List.any_eq_true.mpr ⟨p, hp, hm⟩
    have hlen : 0 < exc.length := List.length_pos.mpr (List.ne_nil_of_mem hp)
    simp [shouldIncludeCommentByActor, hany, hlen]
  · intro hex hinc
    have hany : exc.any (actorMatchesPattern actor) = false := by
      rw [Bool.eq_false_iff]
      intro hcon
      rcases List.any_eq_true.mp hcon with ⟨p, hp, hm⟩
      rw [hex p hp] at hm
      cases hm
    have hlen : 0 < inc.length := List.length_pos.mpr hinc
    simp [shouldIncludeCommentByActor, hany, hlen, List.any_eq_true]
  · intro h1 h2
    simp [shouldIncludeCommentByActor, h1, h2]

/-- Witness for claim C9: a bot actor explicitly present in the include list
is still dropped because the bot wildcard in the exclude list wins, and with
both lists empty everything is kept. -/
theorem shouldIncludeCommentByActor_spec_witness :
    shouldIncludeCommentByActor "dependabot[bot]" ["dependabot[bot]"] ["*[bot]"] = false
    ∧ shouldIncludeCommentByActor "alice" [] [] = true :=
  ⟨(shouldIncludeCommentByActor_spec "dependabot[bot]" ["dependabot[bot]"] ["*[bot]"]).2.1
     ⟨"*[bot]", by decide, by decide⟩,
   (shouldIncludeCommentByActor_spec "alice" [] []).2.2.2 rfl rfl⟩

/-! ## Theorems: credential broker and the skip path -/

/-- The retry wrapper propagates the skip signal immediately: if the first
`k` attempts fail with ordinary errors and attempt `k` raises the skip
signal, the whole retried call raises the skip signal, for any attempt bound
exceeding `k`. -/
theorem retryFrom_skip (op : Nat → Except RunError α) (msg : String) :
    ∀ (k i rem : Nat), k < rem →
    (∀ j, j < k → ∃ m, op (i + j) = .error (.err m)) →
    op (i + k) = .error (.skip msg) →
    retryFrom op i rem = .error (.skip msg) := by
  intro k
  induction k with
  | zero =>
    intro i rem hrem hprev hskip
    match rem, hrem with
    | n + 1, _ =>
      unfold retryFrom
      rw [Nat.add_zero] at hskip
      rw [hskip]
  | succ k ih =>
    intro i rem hrem hprev hskip
    match rem, hrem with
    | n + 1, hrem =>
      obtain ⟨m0, hm0⟩ := hprev 0 (Nat.succ_pos k)
      rw [Nat.add_zero] at hm0
      have hn : k < n := Nat.lt_of_succ_lt_succ hrem
      have hn0 : ¬(n = 0) := by omega
      unfold retryFrom
      rw [hm0]
      simp only [hn0, if_false]
      apply ih (i + 1) n hn
      · intro j hj
        have hh := hprev (j + 1) (by omega)
        rw [show i + (j + 1) = i + 1 + j by omega] at hh
        exact hh
      · rw [show i + 1 + k = i + (k + 1) by omega]
        exact hskip

/-- A non-success exchange response carrying the workflow-validation error
code raises the skip signal with the server-provided message. -/
theorem exchange_skip_code (resp : ExchangeResponse)
    (hok : resp.ok = false)
    (hcode : resp.errorCode = some "workflow_not_found_on_default_branch") :
    exchangeForAppToken resp =
      .error (.skip (resp.topMessage.getD
        (resp.errorMessage.getD "Workflow validation failed"))) := by
  unfold exchangeForAppToken
  rw [hok, hcode]
  simp

/-- A non-success exchange response with any other error code raises an
ordinary (retryable) error. -/
theorem exchange_hard_error (resp : ExchangeResponse)
    (hok : resp.ok = false)
    (hcode : resp.errorCode ≠ some "workflow_not_found_on_default_branch") :
    ∃ m, exchangeForAppToken resp = .error (.err m) := by
  unfold exchangeForAppToken
  rw [hok]
  simp [hcode]

/-- Claim C1: when some exchange attempt `k` (after any number of ordinarily
failing attempts) receives a non-success response whose error code is the
workflow-validation code, the skip signal reaches the orchestrator, which
emits the skipped output set to the string true and terminates cleanly: no
failure is recorded, preparation is not marked failed, and the cleanup block
still runs exactly once. -/
theorem workflow_skip_clean (env : RunEnv) (k : Nat) (oidcTok : String)
    (hearly : env.earlyResult = .ok ())
    (hover : optTruthy env.tokenEnv.overrideToken = false)
    (hoidc : retryWithBackoff env.tokenEnv.oidcResults env.tokenEnv.maxAttempts = .ok oidcTok)
    (hk : k < env.tokenEnv.maxAttempts)
    (hprev : ∀ j, j < k → (env.tokenEnv.exchangeResponses j).ok = false ∧
        (env.tokenEnv.exchangeResponses j).errorCode ≠ some "workflow_not_found_on_default_branch")
    (hcurOk : (env.tokenEnv.exchangeResponses k).ok = false)
    (hcurCode : (env.tokenEnv.exchangeResponses k).errorCode =
        some "workflow_not_found_on_default_branch") :
    (runAction env).outputs =
      [("skipped_due_to_workflow_validation_mismatch", some "true"),
       ("branch_name", none), ("github_token", none)]
    ∧ (runAction env).setFailedMsg = none
    ∧ (runAction env).prepareSuccess = true
    ∧ (runAction env).prepareError = none
    ∧ (runAction env).finallyCount = 1 := by
  have hsetup : setupGitHubToken env.tokenEnv =
      .error (.skip ((env.tokenEnv.exchangeResponses k).topMessage.getD
        ((env.tokenEnv.exchangeResponses k).errorMessage.getD "Workflow validation failed"))) := by
    unfold setupGitHubToken
    rw [hover]
    simp only [Bool.false_eq_true, if_false]
    rw [hoidc]
    unfold retryWithBackoff
    apply retryFrom_skip _ _ k 0 _ hk
    · intro j hj
      obtain ⟨h1, h2⟩ := hprev j hj
      simpa using exchange_hard_error _ h1 h2
    · simpa using exchange_skip_code _ hcurOk hcurCode
  unfold runAction tryPhase
  rw [hearly, hsetup]
  simp [catchPhase, finallyPhase, commentIdTruthy, optTruthy]

/-- A retryable non-success exchange response (no structured error code). -/
def c1HardResp : ExchangeResponse :=
  { ok := false, errorMessage := some "server error", errorCode := none,
    topMessage := none, token := none, app_token := none }

/-- A non-success exchange response carrying the workflow-validation error
code. -/
def c1SkipResp : ExchangeResponse :=
  { ok := false, errorMessage := some "workflow file not on default branch",
    errorCode := some "workflow_not_found_on_default_branch",
    topMessage := none, token := none, app_token := none }

/-- A full orchestrator environment where exchange attempt 0 fails ordinarily
and attempt 1 returns the workflow-validation code; everything later would
succeed, but is never reached. -/
def c1RunEnv : RunEnv :=
  { earlyResult := .ok (),
    tokenEnv :=
      { overrideToken := none,
        oidcResults := fun _ => .ok "oidc-token",
        exchangeResponses := fun i => if i = 0 then c1HardResp else c1SkipResp,
        maxAttempts := 3,
        additionalPermissionsRaw := none },
    isEntity := true,
    permResult := .ok true,
    modeIsTag := true,
    tagTriggerResult := true,
    promptInput := none,
    prepareResult := .ok
      { commentId := some 7, claudeBranch := some "claude/fix", baseBranch := some "main" },
    installResult := .ok (),
    claudeResult := .ok
      { conclusion := "success", executionFile := none, sessionId := none,
        structuredOutput := none },
    updateCommentResult := .ok () }

/-- Witness for claim C1: on `c1RunEnv` (one ordinary failure, then the
workflow-validation code at attempt 1) the run emits the skipped output as
true, records no failure, and runs cleanup once. -/
theorem workflow_skip_clean_witness :
    (runAction c1RunEnv).outputs =
      [("skipped_due_to_workflow_validation_mismatch", some "true"),
       ("branch_name", none), ("github_token", none)]
    ∧ (runAction c1RunEnv).setFailedMsg = none
    ∧ (runAction c1RunEnv).prepareSuccess = true
    ∧ (runAction c1RunEnv).prepareError = none
    ∧ (runAction c1RunEnv).finallyCount = 1 :=
  workflow_skip_clean c1RunEnv 1 "oidc-token" rfl rfl rfl (by decide)
    (fun j hj => by interval_cases j; exact ⟨rfl, by decide⟩) rfl rfl

/-! ## Theorems: phase orchestration -/

/-- The finally block does not alter the preparation-success flag. -/
theorem finallyPhase_prepareSuccess (env : RunEnv) (s : RunState) :
    (finallyPhase env s).prepareSuccess = s.prepareSuccess := by
  simp only [finallyPhase]
  split
  · split <;> rfl
  · rfl

/-- The finally block does not alter the recorded preparation error. -/
theorem finallyPhase_prepareError (env : RunEnv) (s : RunState) :
    (finallyPhase env s).prepareError = s.prepareError := by
  simp only [finallyPhase]
  split
  · split <;> rfl
  · rfl

/-- The finally block does not alter the recorded failure message. -/
theorem finallyPhase_setFailedMsg (env : RunEnv) (s : RunState) :
    (finallyPhase env s).setFailedMsg = s.setFailedMsg := by
  simp only [finallyPhase]
  split
  · split <;> rfl
  · rfl

/-- The finally block runs exactly once on top of the state it receives. -/
theorem finallyPhase_finallyCount (env : RunEnv) (s : RunState) :
    (finallyPhase env s).finallyCount = s.finallyCount + 1 := by
  simp only [finallyPhase]
  split
  · split <;> rfl
  · rfl

/-- The finally block appends exactly the branch-name and credential
outputs. -/
theorem finallyPhase_outputs (env : RunEnv) (s : RunState) :
    (finallyPhase env s).outputs =
      s.outputs ++ [("branch_name", s.claudeBranch), ("github_token", s.githubToken)] := by
  simp only [finallyPhase]
  split
  · split <;> rfl
  · rfl

/-- Claim C3: with `prepareCompleted` as the sole discriminator, an error
thrown before preparation completes marks the preparation as failed and
records the message in the preparation-error output, while the same error
thrown during execution (after preparation completed) leaves the
preparation flags untouched; the run is marked failed and the cleanup block
runs exactly once in either case. -/
theorem prepare_attribution :
    (∀ (env : RunEnv) (msg t : String),
        env.earlyResult = .ok () →
        setupGitHubToken env.tokenEnv = .ok t →
        (env.isEntity = true → env.permResult = .ok true) →
        containsTrigger env = true →
        env.prepareResult = .error (.err msg) →
        (runAction env).prepareSuccess = false
        ∧ (runAction env).prepareError = some msg
        ∧ (runAction env).setFailedMsg = some ("Action failed with error: " ++ msg)
        ∧ (runAction env).finallyCount = 1)
    ∧ (∀ (env : RunEnv) (msg t : String) (prep : PrepResult),
        env.earlyResult = .ok () →
        setupGitHubToken env.tokenEnv = .ok t →
        (env.isEntity = true → env.permResult = .ok true) →
        containsTrigger env = true →
        env.prepareResult = .ok prep →
        env.installResult = .ok () →
        env.claudeResult = .error (.err msg) →
        (runAction env).prepareSuccess = true
        ∧ (runAction env).prepareError = none
        ∧ (runAction env).setFailedMsg = some ("Action failed with error: " ++ msg)
        ∧ (runAction env).finallyCount = 1) := by
  constructor
  · intro env msg t hearly hsetup hperm htrig hprep
    have htry : tryPhase env = ({ githubToken := some t }, some (.err msg)) := by
      unfold tryPhase
      rw [hearly, hsetup, hprep, htrig]
      cases hent : env.isEntity
      · simp
      · rw [hperm hent]
        simp
    unfold runAction
    rw [htry]
    simp [catchPhase, errMessage, finallyPhase_prepareSuccess,
      finallyPhase_prepareError, finallyPhase_setFailedMsg, finallyPhase_finallyCount]
  · intro env msg t prep hearly hsetup hperm htrig hprep hinstall hclaude
    have htry : tryPhase env =
        ({ githubToken := some t, commentId := prep.commentId,
           claudeBranch := prep.claudeBranch, baseBranch := prep.baseBranch,
           prepareCompleted := true }, some (.err msg)) := by
      unfold tryPhase
      rw [hearly, hsetup, hprep, hinstall, hclaude, htrig]
      cases hent : env.isEntity
      · simp
      · rw [hperm hent]
        simp
    unfold runAction
    rw [htry]
    simp [catchPhase, errMessage, finallyPhase_prepareSuccess,
      finallyPhase_prepareError, finallyPhase_setFailedMsg, finallyPhase_finallyCount]

/-- A token environment whose override credential short-circuits the
exchange. -/
def c3TokenEnv : TokenEnv :=
  { overrideToken := some "tok",
    oidcResults := fun _ => .ok "oidc",
    exchangeResponses := fun _ =>
      { ok := true, errorMessage := none, errorCode := none, topMessage := none,
        token := some "tok", app_token := none },
    maxAttempts := 3,
    additionalPermissionsRaw := none }

/-- An orchestrator environment whose preparation step throws `boom`. -/
def c3EnvA : RunEnv :=
  { earlyResult := .ok (),
    tokenEnv := c3TokenEnv,
    isEntity := true,
    permResult := .ok true,
    modeIsTag := false,
    tagTriggerResult := false,
    promptInput := some "fix the bug",
    prepareResult := .error (.err "boom"),
    installResult := .ok (),
    claudeResult := .ok
      { conclusion := "success", executionFile := none, sessionId := none,
        structuredOutput := none },
    updateCommentResult := .ok () }

/-- The same environment except that preparation succeeds and the workload
run throws the identical `boom`. -/
def c3EnvB : RunEnv :=
  { c3EnvA with
    prepareResult := .ok
      { commentId := some 3, claudeBranch := some "claude/b", baseBranch := some "main" },
    claudeResult := .error (.err "boom") }

/-- Witness for claim C3: the identical error `boom` thrown during
preparation versus during execution is attributed to the correct phase, and
cleanup runs exactly once in both runs. -/
theorem prepare_attribution_witness :
    ((runAction c3EnvA).prepareSuccess = false
      ∧ (runAction c3EnvA).prepareError = some "boom"
      ∧ (runAction c3EnvA).setFailedMsg = some ("Action failed with error: " ++ "boom")
      ∧ (runAction c3EnvA).finallyCount = 1)
    ∧ ((runAction c3EnvB).prepareSuccess = true
      ∧ (runAction c3EnvB).prepareError = none
      ∧ (runAction c3EnvB).setFailedMsg = some ("Action failed with error: " ++ "boom")
      ∧ (runAction c3EnvB).finallyCount = 1) :=
  ⟨prepare_attribution.1 c3EnvA "boom" "tok" rfl rfl (fun _ => rfl) rfl rfl,
   prepare_attribution.2 c3EnvB "boom" "tok"
     { commentId := some 3, claudeBranch := some "claude/b", baseBranch := some "main" }
     rfl rfl (fun _ => rfl) rfl rfl rfl rfl⟩

/-- The try block never touches the finally counter. -/
theorem tryPhase_finallyCount (env : RunEnv) :
    (tryPhase env).1.finallyCount = 0 := by
  unfold tryPhase
  repeat' split
  all_goals rfl

/-- The catch block never touches the finally counter. -/
theorem catchPhase_finallyCount (s : RunState) (th : Option RunError) :
    (catchPhase s th).finallyCount = s.finallyCount := by
  cases th with
  | none => rfl
  | some e =>
    simp only [catchPhase]
    split <;> rfl

/-- The try block never attempts the tracking-comment update. -/
theorem tryPhase_cleanupCommentAttempts (env : RunEnv) :
    (tryPhase env).1.cleanupCommentAttempts = 0 := by
  unfold tryPhase
  repeat' split
  all_goals rfl

/-- The catch block never attempts the tracking-comment update. -/
theorem catchPhase_cleanupCommentAttempts (s : RunState) (th : Option RunError) :
    (catchPhase s th).cleanupCommentAttempts = s.cleanupCommentAttempts := by
  cases th with
  | none => rfl
  | some e =>
    simp only [catchPhase]
    split <;> rfl

/-- Claim C4: the cleanup block executes exactly once on every termination
of a run, whatever the environment did; an error thrown by the
tracking-comment update during cleanup is logged (whenever the update was
attempted, the logged cleanup error carries its message) and never
re-raised: the entire run state — outputs, failure message, attribution
flags — is identical to the run whose cleanup succeeded, except for the
logged cleanup error. -/
theorem cleanup_no_mask (env : RunEnv) (m : String) :
    (runAction env).finallyCount = 1
    ∧ ((runAction { env with updateCommentResult := .error (.err m) }).cleanupCommentAttempts = 1 →
        (runAction { env with updateCommentResult := .error (.err m) }).cleanupCommentError = some m)
    ∧ ∃ logged : Option String,
        runAction { env with updateCommentResult := .error (.err m) } =
          { runAction { env with updateCommentResult := .ok () } with
            cleanupCommentError := logged } := by
  refine ⟨?_, ?_⟩
  · unfold runAction
    rcases h : tryPhase env with ⟨s, thrown⟩
    have hs : s.finallyCount = 0 := by
      have hh := tryPhase_finallyCount env
      rw [h] at hh
      exact hh
    rw [finallyPhase_finallyCount, catchPhase_finallyCount, hs]
  · obtain ⟨e1, e2, e3, e4, e5, e6, e7, e8, e9, e10, e11⟩ := env
    rcases h : tryPhase
        ⟨e1, e2, e3, e4, e5, e6, e7, e8, e9, e10, Except.error (.err m)⟩ with ⟨s, thrown⟩
    have h2 : tryPhase ⟨e1, e2, e3, e4, e5, e6, e7, e8, e9, e10, Except.ok ()⟩
        = (s, thrown) := h
    have hatt : (catchPhase s thrown).cleanupCommentAttempts = 0 := by
      rw [catchPhase_cleanupCommentAttempts]
      have hh := tryPhase_cleanupCommentAttempts
        ⟨e1, e2, e3, e4, e5, e6, e7, e8, e9, e10, Except.error (.err m)⟩
      rw [h] at hh
      exact hh
    unfold runAction
    rw [h, h2]
    unfold finallyPhase
    by_cases hc : (commentIdTruthy (catchPhase s thrown).commentId && e3 &&
        optTruthy (catchPhase s thrown).githubToken) = true
    · constructor
      · intro _
        simp only [hc, if_true, if_pos]
        rfl
      · refine ⟨some m, ?_⟩
        simp only [hc, if_true, if_pos]
        rfl
    · constructor
      · intro habs
        simp [hc] at habs
        omega
      · refine ⟨(catchPhase s thrown).cleanupCommentError, ?_⟩
        simp only [hc, if_false, if_neg]
        rfl

/-- An orchestrator environment whose run reaches the workload and attempts
the tracking-comment update during cleanup. -/
def c4Env : RunEnv :=
  { earlyResult := .ok (),
    tokenEnv :=
      { overrideToken := some "tok",
        oidcResults := fun _ => .ok "oidc",
        exchangeResponses := fun _ =>
          { ok := true, errorMessage := none, errorCode := none, topMessage := none,
            token := some "tok", app_token := none },
        maxAttempts := 3,
        additionalPermissionsRaw := none },
    isEntity := true,
    permResult := .ok true,
    modeIsTag := false,
    tagTriggerResult := false,
    promptInput := some "run the task",
    prepareResult := .ok
      { commentId := some 11, claudeBranch := some "claude/c", baseBranch := some "main" },
    installResult := .ok (),
    claudeResult := .ok
      { conclusion := "success", executionFile := none, sessionId := none,
        structuredOutput := none },
    updateCommentResult := .ok () }

/-- Witness for claim C4: on `c4Env` cleanup runs exactly once; when the
comment update throws, its message is logged and the rest of the final state
is untouched relative to the successful-cleanup run. -/
theorem cleanup_no_mask_witness :
    (runAction c4Env).finallyCount = 1
    ∧ (runAction { c4Env with updateCommentResult := .error (.err "update failed") }).cleanupCommentError =
        some "update failed"
    ∧ ∃ logged : Option String,
        runAction { c4Env with updateCommentResult := .error (.err "update failed") } =
          { runAction { c4Env with updateCommentResult := .ok () } with
            cleanupCommentError := logged } :=
  ⟨(cleanup_no_mask c4Env "update failed").1,
   (cleanup_no_mask c4Env "update failed").2.1 rfl,
   (cleanup_no_mask c4Env "update failed").2.2⟩

/-! ## Theorems: error propagation in mode preparation -/

/-- An agent-mode preparation environment in which every step succeeds
except the git-auth configuration. -/
def c5AgentEnv : AgentPrepEnv :=
  { checkHumanActor := .ok (), sshSigningKey := "", useCommitSigning := false,
    setupSshSigningResult := .ok (),
    configureGitAuthResult := .error (.err "git auth failed"),
    mkdirResult := .ok (), writeFileResult := .ok (), prepareMcpResult := .ok () }

/-- Counterexample to claim C5: in agent mode a git-auth configuration
failure raised during preparation is caught, logged and suppressed —
`prepareAgentMode` returns success carrying the swallowed message, and no
error propagates to the orchestrator. -/
theorem prepareAgentMode_swallows :
    prepareAgentMode c5AgentEnv = .ok (some "git auth failed")
    ∧ ∀ er : RunError, prepareAgentMode c5AgentEnv ≠ .error er :=
  ⟨rfl, fun er h => by
    rw [show prepareAgentMode c5AgentEnv = .ok (some "git auth failed") from rfl] at h
    exact Except.noConfusion h⟩

/-- Claim C5 (amended): fatal preparation errors propagate to the top-level
handler except for git-auth configuration errors in agent mode, which
`prepareAgentMode` deliberately logs and suppresses: the outcome of the
git-auth step never changes whether agent-mode preparation propagates an
error, while in tag mode (whenever the git-auth branch runs at all) the same
error does propagate. -/
theorem prepare_propagation_amended :
    (∀ (e : AgentPrepEnv) (x : Except RunError Unit) (er : RunError),
        prepareAgentMode { e with configureGitAuthResult := x } = .error er ↔
        prepareAgentMode { e with configureGitAuthResult := .ok () } = .error er)
    ∧ (∀ (e : TagPrepEnv) (cid : Nat) (er : RunError),
        e.isEntity = true →
        e.checkHumanActor = .ok () →
        e.createInitialComment = .ok cid →
        e.fetchGitHubData = .ok () →
        e.setupBranch = .ok () →
        (e.sshSigningKey ≠ "" → e.setupSshSigningResult = .ok ()) →
        (e.sshSigningKey = "" → e.useCommitSigning = false) →
        e.configureGitAuthResult = .error er →
        prepareTagMode e = .error er) := by
  constructor
  · intro e x er
    obtain ⟨a1, key, cs, ssh, cga, mk, wf, mcp⟩ := e
    cases a1 <;> cases ssh <;> cases mk <;> cases wf <;> cases mcp <;>
      by_cases hk : key = "" <;> cases cs <;>
      simp [prepareAgentMode, hk]
  · intro e cid er h1 h2 h3 h4 h5 h6 h7 h8
    unfold prepareTagMode
    rw [h1, h2, h3, h4, h5]
    by_cases hk : e.sshSigningKey = ""
    · have hcs := h7 hk
      simp [hk, hcs, h8]
    · have hss := h6 hk
      simp [hk, hss, h8]

/-- A tag-mode preparation environment in which every step succeeds except
the git-auth configuration. -/
def c5TagEnv : TagPrepEnv :=
  { isEntity := true, checkHumanActor := .ok (), createInitialComment := .ok 9,
    fetchGitHubData := .ok (), setupBranch := .ok (),
    sshSigningKey := "", useCommitSigning := false,
    setupSshSigningResult := .ok (),
    configureGitAuthResult := .error (.err "git auth failed"),
    createPromptResult := .ok (), prepareMcpResult := .ok () }

/-- Witness for the amended claim C5: the git-auth failure does not change
whether agent-mode preparation errors out, while tag mode propagates the
same failure. -/
theorem prepare_propagation_amended_witness :
    (prepareAgentMode { c5AgentEnv with
        configureGitAuthResult := .error (.err "git auth failed") } = .error (.err "other") ↔
      prepareAgentMode { c5AgentEnv with
        configureGitAuthResult := .ok () } = .error (.err "other"))
    ∧ prepareTagMode c5TagEnv = .error (.err "git auth failed") :=
  ⟨prepare_propagation_amended.1 c5AgentEnv (.error (.err "git auth failed")) (.err "other"),
   prepare_propagation_amended.2 c5TagEnv 9 (.err "git auth failed")
     rfl rfl rfl rfl rfl (fun h => absurd rfl h) (fun _ => rfl) rfl⟩

/-! ## Theorems: credential output emission -/

/-- The catch block never touches the resolved credential variable. -/
theorem catchPhase_githubToken (s : RunState) (th : Option RunError) :
    (catchPhase s th).githubToken = s.githubToken := by
  cases th with
  | none => rfl
  | some e =>
    simp only [catchPhase]
    split <;> rfl

/-- The finally block never touches the resolved credential variable. -/
theorem finallyPhase_githubToken (env : RunEnv) (s : RunState) :
    (finallyPhase env s).githubToken = s.githubToken := by
  simp only [finallyPhase]
  split
  · split <;> rfl
  · rfl

/-- An orchestrator environment that terminates through the
workflow-validation skip path on the first exchange attempt. -/
def c6SkipEnv : RunEnv :=
  { earlyResult := .ok (),
    tokenEnv :=
      { overrideToken := none,
        oidcResults := fun _ => .ok "oidc",
        exchangeResponses := fun _ =>
          { ok := false, errorMessage := some "wf missing",
            errorCode := some "workflow_not_found_on_default_branch",
            topMessage := none, token := none, app_token := none },
        maxAttempts := 1,
        additionalPermissionsRaw := none },
    isEntity := true,
    permResult := .ok true,
    modeIsTag := true,
    tagTriggerResult := true,
    promptInput := none,
    prepareResult := .ok
      { commentId := some 2, claudeBranch := some "claude/z", baseBranch := some "main" },
    installResult := .ok (),
    claudeResult := .ok
      { conclusion := "success", executionFile := none, sessionId := none,
        structuredOutput := none },
    updateCommentResult := .ok () }

/-- Counterexample to claim C6: on the workflow-validation skip path no
credential was resolved, so although a github-token output event is emitted,
its value is the undefined value, and no credential string is ever emitted
under that output name on this terminating path. -/
theorem github_token_skip_cex :
    (runAction c6SkipEnv).outputs =
      [("skipped_due_to_workflow_validation_mismatch", some "true"),
       ("branch_name", none), ("github_token", none)]
    ∧ ∀ tok : String, ("github_token", some tok) ∉ (runAction c6SkipEnv).outputs := by
  have houts : (runAction c6SkipEnv).outputs =
      [("skipped_due_to_workflow_validation_mismatch", some "true"),
       ("branch_name", none), ("github_token", none)] := by decide
  refine ⟨houts, ?_⟩
  intro tok h
  rw [houts] at h
  simp at h

/-- Claim C6 (amended): on every terminating path the run emits a
github-token output as its final output event, carrying the orchestrator's
credential variable; whenever credential setup succeeded — including the
no-trigger early exit — that variable holds the resolved credential, but on
the workflow-validation skip path no credential was resolved and the output
carries the undefined value. -/
theorem github_token_always_emitted :
    (∀ env : RunEnv, ∃ rest,
        (runAction env).outputs = rest ++ [("github_token", (runAction env).githubToken)])
    ∧ (∀ (env : RunEnv) (t : String),
        env.earlyResult = .ok () →
        setupGitHubToken env.tokenEnv = .ok t →
        (runAction env).githubToken = some t) := by
  constructor
  · intro env
    unfold runAction
    rcases h : tryPhase env with ⟨s, thrown⟩
    refine ⟨(catchPhase s thrown).outputs ++
      [("branch_name", (catchPhase s thrown).claudeBranch)], ?_⟩
    rw [finallyPhase_outputs, finallyPhase_githubToken]
    simp
  · intro env t hearly hsetup
    have htry : (tryPhase env).1.githubToken = some t := by
      unfold tryPhase
      simp only [hearly, hsetup]
      repeat' split
      all_goals rfl
    unfold runAction
    rcases h : tryPhase env with ⟨s, thrown⟩
    rw [h] at htry
    rw [finallyPhase_githubToken, catchPhase_githubToken]
    exact htry

/-- An orchestrator environment that resolves the override credential and
completes every phase. -/
def c6OkEnv : RunEnv :=
  { earlyResult := .ok (),
    tokenEnv :=
      { overrideToken := some "tok",
        oidcResults := fun _ => .ok "oidc",
        exchangeResponses := fun _ =>
          { ok := true, errorMessage := none, errorCode := none, topMessage := none,
            token := some "tok", app_token := none },
        maxAttempts := 3,
        additionalPermissionsRaw := none },
    isEntity := false,
    permResult := .ok true,
    modeIsTag := false,
    tagTriggerResult := false,
    promptInput := some "go",
    prepareResult := .ok
      { commentId := none, claudeBranch := none, baseBranch := some "main" },
    installResult := .ok (),
    claudeResult := .ok
      { conclusion := "success", executionFile := none, sessionId := none,
        structuredOutput := none },
    updateCommentResult := .ok () }

/-- Witness for the amended claim C6: on a successful run the final output
event is the github-token output and it carries the resolved credential. -/
theorem github_token_always_emitted_witness :
    (∃ rest, (runAction c6OkEnv).outputs =
        rest ++ [("github_token", (runAction c6OkEnv).githubToken)])
    ∧ (runAction c6OkEnv).githubToken = some "tok" :=
  ⟨github_token_always_emitted.1 c6OkEnv,
   github_token_always_emitted.2 c6OkEnv "tok" rfl rfl⟩
